import Mathlib

/-!
Shallow embedding of the producthuntnews orchestration pipeline.

The definitions below are translated from the repository source:
* `src/server.js` / `src/test-server.js` — the streaming analysis handler
  (`/api/analyze-stream`), the bounded handler (`/api/quick-analyze`) and the
  read-latest handler (`/api/latest-results`).
* `src/services/productHuntService.js` — the Listing Source
  (`ProductHuntService.getTrendingProducts` with its REST and mock fallbacks)
  and the Analyzer (`ChatGPTService.analyzeProduct` with its rule-based
  fallback `createFallbackAnalysis`).

External effects (token lookup, network calls, timers, randomness, clock)
are modelled as oracle fields of environment structures; promises that can
reject are modelled as `Except`.  A race of an operation against a timer is
modelled by the settle time of the operation together with the fixed timeout
constant: the operation wins the race exactly when it settles strictly
before the timer fires.
-/

namespace ProductHuntNews

/-- One topic tag attached to a product (`topics` entries in the source data
model; only the `name` field is read by the code modelled here). -/
structure Topic where
  name : String
  deriving Repr, DecidableEq

/-- One trending listing, as produced by `transformProduct` /
`transformRESTProduct` / `getMockProducts` in `productHuntService.js`.  Only
the fields read by the orchestrator, the analyzer and the fallbacks are
kept. -/
structure Product where
  id : String
  name : String
  tagline : String
  votesCount : Nat
  commentsCount : Nat
  topics : List Topic
  deriving Repr, DecidableEq

/-- One target-user entry of an analysis
(`{demographic, likelihood}`). -/
structure TargetUser where
  demographic : String
  likelihood : String
  deriving Repr, DecidableEq

/-- Metadata block attached by `ChatGPTService.analyzeProduct` after a
completed external call. -/
structure AnalysisMetadata where
  model : String
  tokensUsed : Nat
  productId : String
  productName : String
  analyzedAt : String
  deriving Repr, DecidableEq

/-- An analysis object as built by `ChatGPTService`.  JavaScript objects with
optional fields are modelled with `Option`/default values; a failure analysis
is one whose `error` field is set. -/
structure Analysis where
  error : Option String := none
  productName : Option String := none
  targetUsers : List TargetUser := []
  successProbability : Option String := none
  summary : Option String := none
  marketInsights : Option String := none
  userPersonas : List String := []
  rawResponse : Option String := none
  fallback : Bool := false
  analyzedAt : Option String := none
  metadata : Option AnalysisMetadata := none
  deriving Repr, DecidableEq

/-- A product together with its attached analysis, as produced by
`{ ...product, analysis }` in the server handlers.  `analysis = none` would
model a product object without an `analysis` field. -/
structure AnalyzedProduct where
  product : Product
  analysis : Option Analysis
  deriving Repr, DecidableEq

/-- The final aggregate of one streaming run (the payload of the `complete`
event, `finalData` in the source). -/
structure RunSummary where
  totalProducts : Nat
  successCount : Nat
  errorCount : Nat
  timestamp : String
  products : List AnalyzedProduct
  deriving Repr, DecidableEq

/-! ## Timeout constants (`server.js` / `test-server.js`) -/

/-- Whole-batch fetch ceiling of the streaming handler (15000 ms). -/
def fetchTimeoutMs : Nat := 15000

/-- Per-item analysis ceiling of the streaming handler (8000 ms). -/
def analysisTimeoutMs : Nat := 8000

/-- Fixed inter-item delay of the streaming handler (200 ms). -/
def interItemDelayMs : Nat := 200

/-- Item count requested by the streaming handler
(`getTrendingProducts(accessToken, 10)`). -/
def streamFetchLimit : Nat := 10

/-- Item count requested by the quick-analyze handler
(`getTrendingProducts(accessToken, 3)`). -/
def quickFetchLimit : Nat := 3

/-- `Promise.race` of an operation against `setTimeout(..., timeoutMs)`.
`settleMs` is the time at which the operation settles with `result`; the
timer rejects with `timeoutMsg` once `timeoutMs` elapses, so the operation
wins exactly when it settles strictly before the timer fires. -/
def promiseRaceTimeout {α : Type} (settleMs : Nat) (result : Except String α)
    (timeoutMs : Nat) (timeoutMsg : String) : Except String α :=
  if settleMs < timeoutMs then result else Except.error timeoutMsg

/-! ## Analyzer model (`ChatGPTService` in `productHuntService.js`) -/

/-- A thrown JavaScript error as inspected by the retry logic: its message,
an optional HTTP status and an optional network error code. -/
structure JsError where
  message : String
  status : Option Nat := none
  code : Option String := none
  deriving Repr, DecidableEq

/-- Outcome of one attempted external chat-completion call: either the call
completes with a response body (whose JSON parse result is `parsed`, `none`
when `JSON.parse` fails) or it throws. -/
inductive ChatOutcome where
  | completes (content : String) (parsed : Option Analysis) (tokensUsed : Nat)
  | throws (e : JsError)

/-- `ChatGPTService.maxRetries`. -/
def chatMaxRetries : Nat := 3

/-- Bool test that an optional HTTP status lies in `[lo, hi)`; an absent
status compares false, matching `undefined >= 500` in JavaScript. -/
def statusInRange (st : Option Nat) (lo hi : Nat) : Bool :=
  match st with
  | some s => decide (lo ≤ s) && decide (s < hi)
  | none => false

/-- `ChatGPTService.shouldRetry`: retry on HTTP 429, on 5xx statuses and on
`ECONNRESET` / `ETIMEDOUT` network errors. -/
def chatShouldRetry (e : JsError) : Bool :=
  e.status == some 429 || statusInRange e.status 500 600 ||
    e.code == some "ECONNRESET" || e.code == some "ETIMEDOUT"

/-- Substring test used to model `String.prototype.includes`. -/
def strIncludes (s sub : String) : Bool :=
  (s.splitOn sub).length != 1

/-- Topic-driven target-user list of `createFallbackAnalysis`, pushed in
source order. -/
def fallbackTargetUsers (topics : List String) : List TargetUser :=
  (if topics.any (fun t => strIncludes t.toLower "developer" || strIncludes t.toLower "tech") then
    [{ demographic := "开发者和技术专业人士", likelihood := "高" }] else []) ++
  (if topics.any (fun t => strIncludes t.toLower "business" || strIncludes t.toLower "productivity") then
    [{ demographic := "商业专业人士", likelihood := "高" }] else []) ++
  (if topics.any (fun t => strIncludes t.toLower "design" || strIncludes t.toLower "creative") then
    [{ demographic := "设计师和创意工作者", likelihood := "高" }] else []) ++
  (if topics.any (fun t => strIncludes t.toLower "ai" || strIncludes t.toLower "machine learning") then
    [{ demographic := "AI和机器学习从业者", likelihood := "高" }] else []) ++
  (if topics.any (fun t => strIncludes t.toLower "marketing" || strIncludes t.toLower "social") then
    [{ demographic := "营销和社交媒体专家", likelihood := "高" }] else [])

/-- `ChatGPTService.createFallbackAnalysis`: the rule-based analysis used
when no external analysis capability is configured.  `now` models
`new Date().toISOString()`. -/
def createFallbackAnalysis (p : Product) (now : String) : Analysis :=
  let voteCount := p.votesCount
  let topicNames := p.topics.map (fun t => t.name)
  let baseUsers := fallbackTargetUsers topicNames
  let targetUsers :=
    if baseUsers.isEmpty then [{ demographic := "一般科技用户", likelihood := "中" }] else baseUsers
  let successProbability :=
    if 100 < voteCount then "高" else if voteCount < 20 then "低" else "中"
  let firstDemographic :=
    match targetUsers with
    | [] => ""
    | u :: _ => u.demographic
  { productName := some p.name,
    targetUsers := targetUsers,
    successProbability := some successProbability,
    summary := some ("获得" ++ toString voteCount ++ "票的产品，主要面向" ++ firstDemographic),
    marketInsights := some "基于产品类别和投票数的基础分析",
    userPersonas := (targetUsers.take 3).map (fun u => u.demographic),
    fallback := true,
    analyzedAt := some now }

/-- Analysis substituted when the external response cannot be parsed as
JSON. -/
def parseFailureAnalysis (raw : String) : Analysis :=
  { error := some "Failed to parse structured response",
    rawResponse := some raw,
    summary := some "Analysis completed but response format was invalid" }

/-- Analysis returned by `analyzeProduct` when the external call failed and
no retry is possible: its `error` field carries the failure message. -/
def apiErrorAnalysis (e : JsError) (now : String) : Analysis :=
  { error := some e.message,
    targetUsers := [{ demographic := "Analysis failed", likelihood := "unknown" }],
    successProbability := some "unknown",
    summary := some "Analysis unavailable due to API error",
    analyzedAt := some now }

/-- Metadata attachment (`analysis.metadata = {...}` in the source;
`this.model` is the string recorded there). -/
def withMetadata (a : Analysis) (p : Product) (now : String) (tokensUsed : Nat) : Analysis :=
  let meta : AnalysisMetadata :=
    { model := "gpt-4o", tokensUsed := tokensUsed,
      productId := p.id, productName := p.name, analyzedAt := now }
  { a with metadata := some meta }

/-- The `try` block of `ChatGPTService.analyzeProduct` for one attempt:
when the service is not configured it returns the rule-based fallback,
otherwise it performs the external call (oracle `attempts`, indexed by the
retry count), substituting the parse-failure analysis when `JSON.parse`
fails and attaching metadata.  A throw of the external call propagates. -/
def analyzeAttemptBody (configured : Bool) (attempts : Nat → ChatOutcome)
    (p : Product) (now : String) (retryCount : Nat) : Except JsError Analysis :=
  if !configured then Except.ok (createFallbackAnalysis p now)
  else
    match attempts retryCount with
    | ChatOutcome.throws e => Except.error e
    | ChatOutcome.completes content parsed tokensUsed =>
      let analysis :=
        match parsed with
        | some a => a
        | none => parseFailureAnalysis content
      Except.ok (withMetadata analysis p now tokensUsed)

/-- `ChatGPTService.analyzeProduct`: the attempt body wrapped in the `catch`
that retries retryable errors while `retryCount < maxRetries` and otherwise
resolves with the error analysis.  The `Except` codomain records that the
promise could in principle reject; the catch handler never rethrows. -/
def analyzeProduct (configured : Bool) (attempts : Nat → ChatOutcome)
    (p : Product) (now : String) (retryCount : Nat) : Except JsError Analysis :=
  match analyzeAttemptBody configured attempts p now retryCount with
  | Except.ok a => Except.ok a
  | Except.error e =>
    if h : retryCount < chatMaxRetries ∧ chatShouldRetry e = true then
      analyzeProduct configured attempts p now (retryCount + 1)
    else
      Except.ok (apiErrorAnalysis e now)
termination_by chatMaxRetries + 1 - retryCount
decreasing_by
  have := h.1
  omega

/-! ## Listing Source model (`ProductHuntService` in `productHuntService.js`) -/

/-- A raw GraphQL post node, with the fields read by `getTrendingProducts`
and `transformProduct`.  Timestamps are epoch milliseconds. -/
structure Post where
  id : String
  name : String
  tagline : String
  votesCount : Nat
  commentsCount : Nat
  createdAtMs : Int
  featuredAtMs : Option Int
  topics : List Topic
  deriving Repr, DecidableEq

/-- A raw REST API post, with the fields read by `transformRESTProduct`
(numeric id, counts; the REST list view has no topics). -/
structure RestPost where
  id : Nat
  name : String
  tagline : String
  votesCount : Nat
  commentsCount : Nat
  deriving Repr, DecidableEq

/-- Environment of one `getTrendingProducts` call: the settled results of the
GraphQL and REST requests (indexed by the requested page size; `ok none`
models a response object without the expected `posts` payload), the start of
the current day, the clock and the random source used by the mock data. -/
structure PHFetchEnv where
  graphqlResult : Nat → Except String (Option (List Post))
  restResult : Nat → Except String (Option (List RestPost))
  todayStartMs : Int
  nowIso : String
  rand : Nat → Nat

/-- One day in milliseconds (`24 * 60 * 60 * 1000`). -/
def dayMs : Int := 86400000

/-- `fetchLimit = Math.min(limit * 2, 30)` in `getTrendingProducts`. -/
def graphqlFetchLimit (limit : Nat) : Nat := min (limit * 2) 30

/-- The filter of `getTrendingProducts`: a post counts as launched today when
its creation or featuring timestamp falls inside `[todayStart, todayEnd)`. -/
def isLaunchedToday (todayStartMs : Int) (post : Post) : Bool :=
  let todayEnd := todayStartMs + dayMs
  let createdToday := decide (todayStartMs ≤ post.createdAtMs) && decide (post.createdAtMs < todayEnd)
  let featuredToday :=
    match post.featuredAtMs with
    | some f => decide (todayStartMs ≤ f) && decide (f < todayEnd)
    | none => false
  createdToday || featuredToday

/-- Stable insertion of a post into a votes-descending list (a later-inserted
post goes before strictly fewer votes and after equal votes among already
placed later-original posts). -/
def insertByVotesDesc (p : Post) : List Post → List Post
  | [] => [p]
  | q :: rest =>
    if p.votesCount < q.votesCount then q :: insertByVotesDesc p rest
    else p :: q :: rest

/-- `todaysProducts.sort((a, b) => (b.votesCount || 0) - (a.votesCount || 0))`:
a stable sort by vote count, descending. -/
def sortByVotesDesc (l : List Post) : List Post := l.foldr insertByVotesDesc []

/-- `ProductHuntService.transformProduct`, restricted to the modelled
fields. -/
def transformProduct (post : Post) : Product :=
  { id := post.id, name := post.name, tagline := post.tagline,
    votesCount := post.votesCount, commentsCount := post.commentsCount,
    topics := post.topics }

/-- `ProductHuntService.transformRESTProduct`, restricted to the modelled
fields (the REST list view carries no topics). -/
def transformRESTProduct (post : RestPost) : Product :=
  { id := toString post.id, name := post.name, tagline := post.tagline,
    votesCount := post.votesCount, commentsCount := post.commentsCount,
    topics := [] }

/-- The three hand-written mock products of `getMockProducts`. -/
def mockBaseProducts : List Product :=
  [ { id := "mock-1", name := "AI Code Assistant Pro",
      tagline := "Your intelligent coding companion",
      votesCount := 1247, commentsCount := 89,
      topics := [{ name := "Developer Tools" }] },
    { id := "mock-2", name := "DataViz Studio",
      tagline := "Beautiful data visualizations made simple",
      votesCount := 892, commentsCount := 67,
      topics := [{ name := "Analytics" }] },
    { id := "mock-3", name := "CloudSync Manager",
      tagline := "Seamless file synchronization across all devices",
      votesCount := 634, commentsCount := 45,
      topics := [{ name := "Productivity" }] } ]

/-- One generated extra mock product (`Product ${i}` in the source); the two
`Math.random()` draws are taken from the `rand` oracle. -/
def mockExtraProduct (rand : Nat → Nat) (i : Nat) : Product :=
  { id := "mock-" ++ toString i, name := "Product " ++ toString i,
    tagline := "Innovative solution for modern challenges",
    votesCount := rand (2 * i) % 500 + 100,
    commentsCount := rand (2 * i + 1) % 50 + 10,
    topics := [{ name := "Technology" }] }

/-- `ProductHuntService.getMockProducts`: the three base products plus
generated products for indices `4 ≤ i ≤ min limit 20`, truncated to
`limit`. -/
def getMockProducts (limit : Nat) (rand : Nat → Nat) : List Product :=
  let extra := (List.range' 4 (min limit 20 - 3)).map (mockExtraProduct rand)
  (mockBaseProducts ++ extra).take limit

/-- The `try` block of `getTrendingProducts`: the GraphQL request, the
missing-payload check, the launched-today filter, the votes-descending sort
and the today/recent fallback choice. -/
def getTrendingProductsGraphQL (env : PHFetchEnv) (limit : Nat) : Except String (List Product) :=
  match env.graphqlResult (graphqlFetchLimit limit) with
  | Except.error e => Except.error e
  | Except.ok none => Except.error "Invalid response structure from Product Hunt API"
  | Except.ok (some posts) =>
    let todays := posts.filter (isLaunchedToday env.todayStartMs)
    let sorted := sortByVotesDesc todays
    let limited := sorted.take limit
    if 0 < limited.length then Except.ok (limited.map transformProduct)
    else Except.ok ((posts.take limit).map transformProduct)

/-- `ProductHuntService.getTrendingProductsREST`: the REST fallback request
(`per_page = Math.min(limit, 50)`), its missing-payload check and the final
`slice(0, limit)`. -/
def getTrendingProductsREST (env : PHFetchEnv) (limit : Nat) : Except String (List Product) :=
  match env.restResult (min limit 50) with
  | Except.error e => Except.error e
  | Except.ok none => Except.error "Invalid response from REST API"
  | Except.ok (some posts) => Except.ok ((posts.map transformRESTProduct).take limit)

/-- `ProductHuntService.getTrendingProducts`: GraphQL first, the REST call as
the first fallback and the built-in mock data as the final fallback. -/
def getTrendingProducts (env : PHFetchEnv) (limit : Nat) : Except String (List Product) :=
  match getTrendingProductsGraphQL env limit with
  | Except.ok products => Except.ok products
  | Except.error _ =>
    match getTrendingProductsREST env limit with
    | Except.ok products => Except.ok products
    | Except.error _ => Except.ok (getMockProducts limit env.rand)

/-! ## Streaming orchestrator model (`/api/analyze-stream`) -/

/-- One server-sent event of the streaming handler. -/
inductive Event where
  | status (message step : String) (total : Option Nat)
  | progress (current total : Nat) (productName message : String)
  | productEv (item : AnalyzedProduct)
  | errorEv (message : String)
  | complete (summary : RunSummary)
  deriving Repr, DecidableEq

/-- One observable action of the streaming handler: emitting an event or
sleeping (the inter-item delay). -/
inductive Action where
  | emit (e : Event)
  | sleep (ms : Nat)
  deriving Repr, DecidableEq

/-- Environment of one streaming run: the stored token, the settle time and
settled result of the `getTrendingProducts` promise, the settle time and
settled result of each item's `analyzeProduct` promise (indexed by item
position), and the clock value used for the final timestamp. -/
structure StreamEnv where
  accessToken : Option String
  fetchSettleMs : Nat
  fetchResult : Except String (List Product)
  analyzeSettleMs : Nat → Nat
  analyzeResult : Nat → Except String Analysis
  timestamp : String

/-- Error message emitted when no stored token is available. -/
def streamAuthErrorMsg : String := "Authentication required. Please set up API credentials."

/-- Error message emitted when the fetch produced no items. -/
def streamNoProductsMsg : String := "No trending products found"

/-- The settled result of the per-item race
`Promise.race([chatGPTService.analyzeProduct(product), 8000 ms timer])`. -/
def itemOutcome (env : StreamEnv) (i : Nat) : Except String Analysis :=
  promiseRaceTimeout (env.analyzeSettleMs i) (env.analyzeResult i) analysisTimeoutMs "Analysis timeout"

/-- Bool form of the per-item race succeeding. -/
def isOkOutcome (env : StreamEnv) (i : Nat) : Bool :=
  match itemOutcome env i with
  | Except.ok _ => true
  | Except.error _ => false

/-- The analyzed product pushed for item `i`: `{ ...product, analysis }` on
success, `{ ...product, analysis: { error: message } }` in the catch
branch. -/
def attachAnalysis (env : StreamEnv) (p : Product) (i : Nat) : AnalyzedProduct :=
  match itemOutcome env i with
  | Except.ok a => { product := p, analysis := some a }
  | Except.error msg => { product := p, analysis := some { error := some msg } }

/-- The analysis loop of the streaming handler over the remaining items,
`i` being the 0-based position of the first of them: returns the emitted
actions, the accumulated analyzed products and the success and error
counters. -/
def analyzeLoop (env : StreamEnv) (total : Nat) :
    List Product → Nat → List Action × List AnalyzedProduct × Nat × Nat
  | [], _ => ([], [], 0, 0)
  | p :: rest, i =>
    let r := analyzeLoop env total rest (i + 1)
    let progressAct := Action.emit (Event.progress (i + 1) total p.name ("Analyzing " ++ p.name ++ "..."))
    match itemOutcome env i with
    | Except.ok a =>
      (progressAct ::
         Action.emit (Event.productEv { product := p, analysis := some a }) ::
         Action.sleep interItemDelayMs :: r.1,
       ({ product := p, analysis := some a } : AnalyzedProduct) :: r.2.1,
       r.2.2.1 + 1, r.2.2.2)
    | Except.error msg =>
      (progressAct ::
         Action.emit (Event.productEv { product := p, analysis := some { error := some msg } }) ::
         Action.sleep interItemDelayMs :: r.1,
       ({ product := p, analysis := some { error := some msg } } : AnalyzedProduct) :: r.2.1,
       r.2.2.1, r.2.2.2 + 1)

/-- The full streaming handler body: returns the sequence of observable
actions and, when the run completes, the `RunSummary` written to the
process-wide latest-results slot (`none` for an aborted run). -/
def analyzeStreamRun (env : StreamEnv) : List Action × Option RunSummary :=
  let initAct := Action.emit (Event.status "Starting analysis..." "init" none)
  match env.accessToken with
  | none => ([initAct, Action.emit (Event.errorEv streamAuthErrorMsg)], none)
  | some _ =>
    let fetchAct := Action.emit (Event.status "Fetching trending products..." "fetch" none)
    match promiseRaceTimeout env.fetchSettleMs env.fetchResult fetchTimeoutMs "Fetch timeout" with
    | Except.error msg => ([initAct, fetchAct, Action.emit (Event.errorEv msg)], none)
    | Except.ok products =>
      if products.isEmpty then
        ([initAct, fetchAct, Action.emit (Event.errorEv streamNoProductsMsg)], none)
      else
        let n := products.length
        let analyzeAct := Action.emit
          (Event.status ("Found " ++ toString n ++ " products. Starting analysis...") "analyze" (some n))
        let r := analyzeLoop env n products 0
        let summary : RunSummary :=
          { totalProducts := r.2.1.length, successCount := r.2.2.1, errorCount := r.2.2.2,
            timestamp := env.timestamp, products := r.2.1 }
        (initAct :: fetchAct :: analyzeAct :: (r.1 ++ [Action.emit (Event.complete summary)]),
         some summary)

/-- Update of the module-level `latestAnalysisResults` slot performed by one
streaming run (`test-server.js`): written only when the run completes. -/
def updateLatest (env : StreamEnv) (prev : Option RunSummary) : Option RunSummary :=
  match (analyzeStreamRun env).2 with
  | some s => some s
  | none => prev

/-- The events of an action sequence (sleeps are not observable on the
wire). -/
def eventsOf (acts : List Action) : List Event :=
  acts.filterMap fun a =>
    match a with
    | Action.emit e => some e
    | Action.sleep _ => none

/-- Event kind tests and projections. -/
def isStatusEvent : Event → Bool
  | Event.status _ _ _ => true
  | _ => false

def isProgressEvent : Event → Bool
  | Event.progress _ _ _ _ => true
  | _ => false

def isProductEvent : Event → Bool
  | Event.productEv _ => true
  | _ => false

def isErrorEvent : Event → Bool
  | Event.errorEv _ => true
  | _ => false

def isCompleteEvent : Event → Bool
  | Event.complete _ => true
  | _ => false

def progressCurrent : Event → Option Nat
  | Event.progress c _ _ _ => some c
  | _ => none

def productOf : Event → Option Product
  | Event.productEv ap => some ap.product
  | _ => none

/-- Kind of an action, used to state trace shapes compactly. -/
inductive ActionKind where
  | statusK | progressK | productK | errorK | completeK | sleepK
  deriving Repr, DecidableEq

def kindOf : Action → ActionKind
  | Action.emit (Event.status _ _ _) => ActionKind.statusK
  | Action.emit (Event.progress _ _ _ _) => ActionKind.progressK
  | Action.emit (Event.productEv _) => ActionKind.productK
  | Action.emit (Event.errorEv _) => ActionKind.errorK
  | Action.emit (Event.complete _) => ActionKind.completeK
  | Action.sleep _ => ActionKind.sleepK

def isSleepAct : Action → Bool
  | Action.sleep _ => true
  | _ => false

/-- The actions of the trace after the last `product` emission. -/
def actsAfterLastProduct (acts : List Action) : List Action :=
  (acts.reverse.takeWhile fun a => kindOf a != ActionKind.productK).reverse

/-- Canonical action block of one loop iteration: progress event, product
event, inter-item sleep. -/
def itemBlock (env : StreamEnv) (total : Nat) (p : Product) (i : Nat) : List Action :=
  [Action.emit (Event.progress (i + 1) total p.name ("Analyzing " ++ p.name ++ "...")),
   Action.emit (Event.productEv (attachAnalysis env p i)),
   Action.sleep interItemDelayMs]

/-- Canonical run summary of a completed streaming run over `products`. -/
def runSummaryOf (env : StreamEnv) (products : List Product) : RunSummary :=
  { totalProducts := products.length,
    successCount := (List.range' 0 products.length).countP (fun j => isOkOutcome env j),
    errorCount := (List.range' 0 products.length).countP (fun j => !isOkOutcome env j),
    timestamp := env.timestamp,
    products := (List.enumFrom 0 products).map fun pr => attachAnalysis env pr.2 pr.1 }

/-! ## Quick-analyze model (`/api/quick-analyze`) -/

/-- Environment of one quick-analyze request: stored token, settled result of
the (unraced) fetch, settled result of each item's (unraced) analysis call,
and the clock value. -/
structure QuickEnv where
  accessToken : Option String
  fetchResult : Except String (List Product)
  analyzeResult : Nat → Except String Analysis
  timestamp : String

/-- HTTP response of the quick-analyze handler. -/
inductive QuickResponse where
  | success (status totalProducts : Nat) (timestamp : String) (products : List AnalyzedProduct)
  | failure (status : Nat) (error : String)
  deriving Repr, DecidableEq

/-- The sequential `for...of` analysis loop of the quick-analyze handler: a
rejected analysis aborts the loop (the rejection is caught by the handler). -/
def quickLoop (env : QuickEnv) : List Product → Nat → Except String (List AnalyzedProduct)
  | [], _ => Except.ok []
  | p :: rest, i =>
    match env.analyzeResult i with
    | Except.error m => Except.error m
    | Except.ok a =>
      match quickLoop env rest (i + 1) with
      | Except.error m => Except.error m
      | Except.ok aps => Except.ok (({ product := p, analysis := some a } : AnalyzedProduct) :: aps)

/-- The quick-analyze handler: 401 without a token, 404 on an empty fetch,
500 with the failure message when the fetch or an analysis call rejects, and
a success JSON body otherwise. -/
def quickAnalyze (env : QuickEnv) : QuickResponse :=
  match env.accessToken with
  | none => QuickResponse.failure 401 "Authentication required"
  | some _ =>
    match env.fetchResult with
    | Except.error m => QuickResponse.failure 500 m
    | Except.ok products =>
      if products.isEmpty then QuickResponse.failure 404 "No products found"
      else
        match quickLoop env products 0 with
        | Except.error m => QuickResponse.failure 500 m
        | Except.ok aps => QuickResponse.success 200 aps.length env.timestamp aps

/-! ## Read-latest model (`/api/latest-results`) -/

/-- HTTP response of the read-latest handler. -/
inductive LatestResponse where
  | ok (summary : RunSummary)
  | notFound (status : Nat) (error : String)
  deriving Repr, DecidableEq

/-- The read-latest handler over the current slot value. -/
def latestResultsHandler (slot : Option RunSummary) : LatestResponse :=
  match slot with
  | none => LatestResponse.notFound 404 "No analysis results available"
  | some s => LatestResponse.ok s

/-! ## Concrete sample inputs, used to instantiate the theorems below -/

def sampleProduct : Product :=
  { id := "p1", name := "Prod One", tagline := "first", votesCount := 10, commentsCount := 2,
    topics := [] }

def sampleProduct2 : Product :=
  { id := "p2", name := "Prod Two", tagline := "second", votesCount := 5, commentsCount := 1,
    topics := [{ name := "Analytics" }] }

def sampleAnalysis : Analysis := { summary := some "looks fine" }

/-- A run with one product whose analysis resolves immediately. -/
def envCompleted : StreamEnv :=
  { accessToken := some "tok", fetchSettleMs := 0, fetchResult := Except.ok [sampleProduct],
    analyzeSettleMs := fun _ => 0, analyzeResult := fun _ => Except.ok sampleAnalysis,
    timestamp := "2026-01-01T00:00:00.000Z" }

/-- A run with no stored token. -/
def envNoCred : StreamEnv :=
  { accessToken := none, fetchSettleMs := 0, fetchResult := Except.ok [],
    analyzeSettleMs := fun _ => 0, analyzeResult := fun _ => Except.ok sampleAnalysis,
    timestamp := "t" }

/-- A run with two products where only the second analysis rejects. -/
def envTwoItems : StreamEnv :=
  { accessToken := some "tok", fetchSettleMs := 0,
    fetchResult := Except.ok [sampleProduct, sampleProduct2],
    analyzeSettleMs := fun _ => 0,
    analyzeResult := fun i => if i = 1 then Except.error "API rate limit" else Except.ok sampleAnalysis,
    timestamp := "t" }

/-- A run whose fetch settles only after the 15000 ms ceiling. -/
def envFetchTimeout : StreamEnv :=
  { accessToken := some "tok", fetchSettleMs := 20000, fetchResult := Except.ok [sampleProduct],
    analyzeSettleMs := fun _ => 0, analyzeResult := fun _ => Except.ok sampleAnalysis,
    timestamp := "t" }

/-- A quick-analyze request with no stored token. -/
def envQuickNoTok : QuickEnv :=
  { accessToken := none, fetchResult := Except.ok [],
    analyzeResult := fun _ => Except.ok sampleAnalysis, timestamp := "t" }

/-- A quick-analyze request that succeeds on one product. -/
def envQuickOk : QuickEnv :=
  { accessToken := some "tok", fetchResult := Except.ok [sampleProduct],
    analyzeResult := fun _ => Except.ok sampleAnalysis, timestamp := "t" }

/-- A listing-source environment where both the GraphQL and the REST calls
fail. -/
def envPHAllFail : PHFetchEnv :=
  { graphqlResult := fun _ => Except.error "GraphQL request failed",
    restResult := fun _ => Except.error "REST API request failed",
    todayStartMs := 0, nowIso := "t", rand := fun _ => 0 }

/-! ## Helper lemmas -/

lemma enumFrom_cons_eq {α : Type} (i : Nat) (p : α) (rest : List α) :
    List.enumFrom i (p :: rest) = (i, p) :: List.enumFrom (i + 1) rest := rfl

lemma range'_cons_eq (s n : Nat) :
    List.range' s (n + 1) = s :: List.range' (s + 1) n := rfl

lemma isOkOutcome_of_ok {env : StreamEnv} {i : Nat} {a : Analysis}
    (h : itemOutcome env i = Except.ok a) : isOkOutcome env i = true := by
  simp [isOkOutcome, h]

lemma isOkOutcome_of_error {env : StreamEnv} {i : Nat} {msg : String}
    (h : itemOutcome env i = Except.error msg) : isOkOutcome env i = false := by
  simp [isOkOutcome, h]

lemma attachAnalysis_product (env : StreamEnv) (p : Product) (i : Nat) :
    (attachAnalysis env p i).product = p := by
  cases h : itemOutcome env i <;> simp [attachAnalysis, h]

lemma attachAnalysis_isSome (env : StreamEnv) (p : Product) (i : Nat) :
    (attachAnalysis env p i).analysis ≠ none := by
  cases h : itemOutcome env i <;> simp [attachAnalysis, h]

/-- Characterization of the analysis loop: its actions are the concatenated
per-item blocks, its product list attaches one analysis per item in order,
and its counters count the item outcomes. -/
lemma analyzeLoop_spec (env : StreamEnv) (total : Nat) :
    ∀ (items : List Product) (i : Nat),
      analyzeLoop env total items i =
        (((List.enumFrom i items).map fun pr => itemBlock env total pr.2 pr.1).flatten,
         (List.enumFrom i items).map (fun pr => attachAnalysis env pr.2 pr.1),
         (List.range' i items.length).countP (fun j => isOkOutcome env j),
         (List.range' i items.length).countP (fun j => !isOkOutcome env j)) := by
  intro items
  induction items with
  | nil => intro i; rfl
  | cons p rest ih =>
    intro i
    have hrec := ih (i + 1)
    cases h : itemOutcome env i with
    | ok a =>
      simp only [analyzeLoop, hrec, h, enumFrom_cons_eq, List.length_cons, range'_cons_eq,
        List.map_cons, List.flatten_cons, itemBlock, attachAnalysis,
        List.countP_cons, isOkOutcome_of_ok h]
      simp [List.cons_append]
    | error msg =>
      simp only [analyzeLoop, hrec, h, enumFrom_cons_eq, List.length_cons, range'_cons_eq,
        List.map_cons, List.flatten_cons, itemBlock, attachAnalysis,
        List.countP_cons, isOkOutcome_of_error h]
      simp [List.cons_append]

/-- Full shape of a completed streaming run. -/
lemma analyzeStreamRun_completed (env : StreamEnv) (tok : String) (products : List Product)
    (htok : env.accessToken = some tok)
    (hfetch : promiseRaceTimeout env.fetchSettleMs env.fetchResult fetchTimeoutMs "Fetch timeout"
      = Except.ok products)
    (hne : products ≠ []) :
    analyzeStreamRun env =
      (Action.emit (Event.status "Starting analysis..." "init" none) ::
       Action.emit (Event.status "Fetching trending products..." "fetch" none) ::
       Action.emit (Event.status ("Found " ++ toString products.length ++ " products. Starting analysis...")
         "analyze" (some products.length)) ::
       (((List.enumFrom 0 products).map fun pr => itemBlock env products.length pr.2 pr.1).flatten
         ++ [Action.emit (Event.complete (runSummaryOf env products))]),
       some (runSummaryOf env products)) := by
  have hempty : products.isEmpty = false := by
    cases products with
    | nil => exact absurd rfl hne
    | cons q qs => rfl
  simp only [analyzeStreamRun, htok, hfetch, hempty, Bool.false_eq_true, if_false,
    analyzeLoop_spec env products.length products 0, runSummaryOf]
  simp [List.enumFrom_length]

/-- Shape of a run aborted for lack of a stored token. -/
lemma analyzeStreamRun_noToken (env : StreamEnv) (h : env.accessToken = none) :
    analyzeStreamRun env =
      ([Action.emit (Event.status "Starting analysis..." "init" none),
        Action.emit (Event.errorEv streamAuthErrorMsg)], none) := by
  simp [analyzeStreamRun, h]

/-- Shape of a run aborted because the fetch race rejected. -/
lemma analyzeStreamRun_fetchError (env : StreamEnv) (tok : String) (msg : String)
    (htok : env.accessToken = some tok)
    (hrace : promiseRaceTimeout env.fetchSettleMs env.fetchResult fetchTimeoutMs "Fetch timeout"
      = Except.error msg) :
    analyzeStreamRun env =
      ([Action.emit (Event.status "Starting analysis..." "init" none),
        Action.emit (Event.status "Fetching trending products..." "fetch" none),
        Action.emit (Event.errorEv msg)], none) := by
  simp [analyzeStreamRun, htok, hrace]

/-- Shape of a run aborted because the fetch returned zero items. -/
lemma analyzeStreamRun_emptyFetch (env : StreamEnv) (tok : String)
    (htok : env.accessToken = some tok)
    (hrace : promiseRaceTimeout env.fetchSettleMs env.fetchResult fetchTimeoutMs "Fetch timeout"
      = Except.ok []) :
    analyzeStreamRun env =
      ([Action.emit (Event.status "Starting analysis..." "init" none),
        Action.emit (Event.status "Fetching trending products..." "fetch" none),
        Action.emit (Event.errorEv streamNoProductsMsg)], none) := by
  simp [analyzeStreamRun, htok, hrace]

/-- Events of one item block. -/
lemma eventsOf_itemBlock (env : StreamEnv) (total : Nat) (p : Product) (i : Nat) :
    eventsOf (itemBlock env total p i) =
      [Event.progress (i + 1) total p.name ("Analyzing " ++ p.name ++ "..."),
       Event.productEv (attachAnalysis env p i)] := rfl

lemma eventsOf_append (l l' : List Action) :
    eventsOf (l ++ l') = eventsOf l ++ eventsOf l' := by
  simp [eventsOf, List.filterMap_append]

lemma eventsOf_emit_cons (e : Event) (l : List Action) :
    eventsOf (Action.emit e :: l) = e :: eventsOf l := rfl

lemma eventsOf_nil : eventsOf [] = [] := rfl

/-- `progress.current` values of the loop actions: exactly
`i + 1, ..., i + N` in order. -/
lemma progressCurrents_loop (env : StreamEnv) (total : Nat) :
    ∀ (items : List Product) (i : Nat),
      ((eventsOf (((List.enumFrom i items).map fun pr => itemBlock env total pr.2 pr.1).flatten)).filterMap
        progressCurrent) = List.range' (i + 1) items.length := by
  intro items
  induction items with
  | nil => intro i; rfl
  | cons p rest ih =>
    intro i
    simp only [enumFrom_cons_eq, List.map_cons, List.flatten_cons, eventsOf_append,
      List.length_cons, range'_cons_eq, List.filterMap_append, ih (i + 1)]
    rfl

/-- Underlying products of the loop's `product` events: the items in fetch
order. -/
lemma productsOf_loop (env : StreamEnv) (total : Nat) :
    ∀ (items : List Product) (i : Nat),
      ((eventsOf (((List.enumFrom i items).map fun pr => itemBlock env total pr.2 pr.1).flatten)).filterMap
        productOf) = items := by
  intro items
  induction items with
  | nil => intro i; rfl
  | cons p rest ih =>
    intro i
    simp only [enumFrom_cons_eq, List.map_cons, List.flatten_cons, eventsOf_append,
      List.filterMap_append, ih (i + 1)]
    simp [eventsOf_itemBlock, productOf, attachAnalysis_product]

/-- Number of `product` events of the loop actions. -/
lemma productCount_loop (env : StreamEnv) (total : Nat) :
    ∀ (items : List Product) (i : Nat),
      ((eventsOf (((List.enumFrom i items).map fun pr => itemBlock env total pr.2 pr.1).flatten)).countP
        isProductEvent) = items.length := by
  intro items
  induction items with
  | nil => intro i; rfl
  | cons p rest ih =>
    intro i
    simp only [enumFrom_cons_eq, List.map_cons, List.flatten_cons, eventsOf_append,
      List.countP_append, ih (i + 1)]
    simp [eventsOf_itemBlock, isProductEvent, List.countP_cons]
    omega

/-- A `countP` over a contiguous range is 1 when the predicate holds at
exactly one point of the range. -/
lemma countP_range'_eq_one (p : Nat → Bool) :
    ∀ (n s k : Nat), s ≤ k → k < s + n →
      (∀ j, s ≤ j → j < s + n → (p j = true ↔ j = k)) →
      (List.range' s n).countP p = 1 := by
  intro n
  induction n with
  | zero => intro s k hsk hks _; omega
  | succ m ih =>
    intro s k hsk hks hp
    rw [range'_cons_eq]
    by_cases hs : s = k
    · have hps : p s = true := (hp s (Nat.le_refl s) (by omega)).mpr hs
      rw [List.countP_cons_of_pos _ _ hps]
      have hzero : (List.range' (s + 1) m).countP p = 0 := by
        rw [List.countP_eq_zero]
        intro j hj
        have hj' := List.mem_range'_1.mp hj
        have : p j = true ↔ j = k := hp j (by omega) (by omega)
        intro hpj
        have := this.mp hpj
        omega
      omega
    · have hps : ¬ p s = true := by
        intro hpj
        exact hs ((hp s (Nat.le_refl s) (by omega)).mp hpj)
      rw [List.countP_cons_of_neg _ _ hps]
      exact ih (s + 1) k (by omega) (by omega) (fun j h1 h2 => hp j (by omega) (by omega))

/-- A `countP` over a contiguous range where the predicate holds everywhere
except at one point counts all but that point. -/
lemma countP_range'_all_but_one (p : Nat → Bool) :
    ∀ (n s k : Nat), s ≤ k → k < s + n →
      (∀ j, s ≤ j → j < s + n → (p j = true ↔ j ≠ k)) →
      (List.range' s n).countP p = n - 1 := by
  intro n s k hsk hks hp
  have hlen := List.length_eq_countP_add_countP p (List.range' s n)
  have hone : (List.range' s n).countP (fun a => decide ¬ p a = true) = 1 := by
    apply countP_range'_eq_one _ n s k hsk hks
    intro j h1 h2
    have := hp j h1 h2
    constructor
    · intro hd
      by_contra hne
      have hpj : p j = true := this.mpr hne
      simp [hpj] at hd
    · intro hd
      subst hd
      simp only [decide_eq_true_eq]
      intro hpj
      exact (this.mp hpj) rfl
  rw [List.length_range'] at hlen
  omega

lemma countP_bool_split {α : Type} (p : α → Bool) (l : List α) :
    l.countP p + l.countP (fun a => !p a) = l.length := by
  induction l with
  | nil => rfl
  | cons a l ih =>
    cases h : p a <;> simp [List.countP_cons, h] <;> omega

/-- Events of the loop actions: progress and product per item, sleeps
dropped. -/
lemma eventsOf_loopActs (env : StreamEnv) (total : Nat) :
    ∀ (items : List Product) (i : Nat),
      eventsOf (((List.enumFrom i items).map fun pr => itemBlock env total pr.2 pr.1).flatten) =
        ((List.enumFrom i items).map fun pr =>
          [Event.progress (pr.1 + 1) total pr.2.name ("Analyzing " ++ pr.2.name ++ "..."),
           Event.productEv (attachAnalysis env pr.2 pr.1)]).flatten := by
  intro items
  induction items with
  | nil => intro i; rfl
  | cons p rest ih =>
    intro i
    simp only [enumFrom_cons_eq, List.map_cons, List.flatten_cons, eventsOf_append, ih (i + 1)]
    rfl

/-- The quick-analyze loop on all-resolving analyses: attaches the analyses
in order. -/
lemma quickLoop_all_ok (env : QuickEnv) (f : Nat → Analysis) :
    ∀ (items : List Product) (i : Nat),
      (∀ j, i ≤ j → j < i + items.length → env.analyzeResult j = Except.ok (f j)) →
      quickLoop env items i =
        Except.ok ((List.enumFrom i items).map fun pr =>
          ({ product := pr.2, analysis := some (f pr.1) } : AnalyzedProduct)) := by
  intro items
  induction items with
  | nil => intro i _; rfl
  | cons p rest ih =>
    intro i h
    have hi : env.analyzeResult i = Except.ok (f i) :=
      h i (Nat.le_refl i) (by simp only [List.length_cons]; omega)
    have hrest := ih (i + 1) (fun j h1 h2 =>
      h j (by omega) (by simp only [List.length_cons]; omega))
    simp [quickLoop, hi, hrest, enumFrom_cons_eq]

/-- The analyzer model never rejects (fuel-indexed induction over the
retries). -/
lemma analyzeProduct_isOk (configured : Bool) (attempts : Nat → ChatOutcome)
    (p : Product) (now : String) :
    ∀ (fuel retryCount : Nat), chatMaxRetries + 1 - retryCount ≤ fuel →
      ∃ a, analyzeProduct configured attempts p now retryCount = Except.ok a := by
  intro fuel
  induction fuel with
  | zero =>
    intro r hr
    rw [analyzeProduct]
    cases hb : analyzeAttemptBody configured attempts p now r with
    | ok a => exact ⟨a, rfl⟩
    | error e =>
      have hnr : ¬ (r < chatMaxRetries ∧ chatShouldRetry e = true) := by
        intro hcontra
        have := hcontra.1
        simp only [chatMaxRetries] at this hr
        omega
      simp only [hnr, dite_false]
      exact ⟨apiErrorAnalysis e now, rfl⟩
  | succ n ih =>
    intro r hr
    rw [analyzeProduct]
    cases hb : analyzeAttemptBody configured attempts p now r with
    | ok a => exact ⟨a, rfl⟩
    | error e =>
      by_cases hc : r < chatMaxRetries ∧ chatShouldRetry e = true
      · simp only [hc, dite_true]
        exact ih (r + 1) (by omega)
      · simp only [hc, dite_false]
        exact ⟨apiErrorAnalysis e now, rfl⟩

/-! ## Claim theorems -/

/-- C1: for every streaming run that reaches the analysis loop over the
fetched items, the complete event carries a RunSummary with
successCount + errorCount = totalProducts = length of products, and every
product in it has a non-null analysis: the race's analysis on success, or a
failure analysis whose error field carries the failure message. -/
theorem C1_complete_summary_totality (env : StreamEnv) (tok : String) (products : List Product)
    (htok : env.accessToken = some tok)
    (hfetch : promiseRaceTimeout env.fetchSettleMs env.fetchResult fetchTimeoutMs "Fetch timeout"
      = Except.ok products)
    (hne : products ≠ []) :
    (analyzeStreamRun env).2 = some (runSummaryOf env products) ∧
    (eventsOf (analyzeStreamRun env).1).getLast? = some (Event.complete (runSummaryOf env products)) ∧
    (runSummaryOf env products).successCount + (runSummaryOf env products).errorCount
      = (runSummaryOf env products).totalProducts ∧
    (runSummaryOf env products).totalProducts = (runSummaryOf env products).products.length ∧
    (runSummaryOf env products).products.length = products.length ∧
    (∀ ap ∈ (runSummaryOf env products).products, ap.analysis ≠ none) ∧
    (∀ i, i < products.length →
      (∃ a, itemOutcome env i = Except.ok a ∧
        (runSummaryOf env products).products[i]? = (products[i]?.map fun p =>
          ({ product := p, analysis := some a } : AnalyzedProduct)))
      ∨ (∃ m, itemOutcome env i = Except.error m ∧
        (runSummaryOf env products).products[i]? = (products[i]?.map fun p =>
          ({ product := p, analysis := some { error := some m } } : AnalyzedProduct)))) := by
  have hshape := analyzeStreamRun_completed env tok products htok hfetch hne
  refine ⟨by rw [hshape], ?_, ?_, ?_, ?_, ?_, ?_⟩
  · rw [hshape]
    simp only [eventsOf_emit_cons, eventsOf_append, eventsOf_nil]
    rw [show ∀ (e1 e2 e3 : Event) (x : List Event) (c : Event),
        e1 :: e2 :: e3 :: (x ++ [c]) = (e1 :: e2 :: e3 :: x) ++ [c] from
      fun _ _ _ _ _ => by simp]
    rw [List.getLast?_concat]
  · simp only [runSummaryOf]
    have := countP_bool_split (fun j => isOkOutcome env j) (List.range' 0 products.length)
    simpa [List.length_range'] using this
  · simp [runSummaryOf, List.enumFrom_length]
  · simp [runSummaryOf, List.enumFrom_length]
  · intro ap hap
    simp only [runSummaryOf, List.mem_map] at hap
    obtain ⟨pr, _, hpr⟩ := hap
    rw [← hpr]
    exact attachAnalysis_isSome env pr.2 pr.1
  · intro i hi
    have hidx : (runSummaryOf env products).products[i]?
        = (products[i]?.map fun p => attachAnalysis env p i) := by
      simp only [runSummaryOf, List.getElem?_map, List.getElem?_enumFrom, Option.map_map]
      cases hp : products[i]? <;> simp [Function.comp]
    cases hout : itemOutcome env i with
    | ok a =>
      left
      refine ⟨a, rfl, ?_⟩
      rw [hidx]
      cases hp : products[i]? with
      | none => rfl
      | some p => simp [attachAnalysis, hout]
    | error m =>
      right
      refine ⟨m, rfl, ?_⟩
      rw [hidx]
      cases hp : products[i]? with
      | none => rfl
      | some p => simp [attachAnalysis, hout]

/-- C1 witness: concrete completed run with one product. -/
theorem C1_witness :
    (analyzeStreamRun envCompleted).2 = some (runSummaryOf envCompleted [sampleProduct]) :=
  (C1_complete_summary_totality envCompleted "tok" [sampleProduct] rfl rfl (by simp)).1

/-- C2: the analysis-phase event trace is, for i from 1 to N in order, the
progress event with current = i directly followed by the product event of
the i-th fetched item; the progress currents are exactly 1..N and the
product event order equals the fetch order. -/
theorem C2_event_ordering (env : StreamEnv) (tok : String) (products : List Product)
    (htok : env.accessToken = some tok)
    (hfetch : promiseRaceTimeout env.fetchSettleMs env.fetchResult fetchTimeoutMs "Fetch timeout"
      = Except.ok products)
    (hne : products ≠ []) :
    eventsOf (analyzeStreamRun env).1 =
      Event.status "Starting analysis..." "init" none ::
      Event.status "Fetching trending products..." "fetch" none ::
      Event.status ("Found " ++ toString products.length ++ " products. Starting analysis...")
        "analyze" (some products.length) ::
      (((List.enumFrom 0 products).map fun pr =>
          [Event.progress (pr.1 + 1) products.length pr.2.name ("Analyzing " ++ pr.2.name ++ "..."),
           Event.productEv (attachAnalysis env pr.2 pr.1)]).flatten
        ++ [Event.complete (runSummaryOf env products)]) ∧
    (eventsOf (analyzeStreamRun env).1).filterMap progressCurrent
      = List.range' 1 products.length ∧
    (eventsOf (analyzeStreamRun env).1).filterMap productOf = products := by
  have hshape := analyzeStreamRun_completed env tok products htok hfetch hne
  have hev : eventsOf (analyzeStreamRun env).1 =
      Event.status "Starting analysis..." "init" none ::
      Event.status "Fetching trending products..." "fetch" none ::
      Event.status ("Found " ++ toString products.length ++ " products. Starting analysis...")
        "analyze" (some products.length) ::
      (eventsOf (((List.enumFrom 0 products).map fun pr =>
          itemBlock env products.length pr.2 pr.1).flatten)
        ++ [Event.complete (runSummaryOf env products)]) := by
    rw [hshape]
    simp only [eventsOf_emit_cons, eventsOf_append, eventsOf_nil]
  refine ⟨?_, ?_, ?_⟩
  · rw [hev, eventsOf_loopActs env products.length products 0]
  · rw [hev]
    simp only [List.filterMap_cons, progressCurrent, List.filterMap_append]
    rw [progressCurrents_loop env products.length products 0]
    simp
  · rw [hev]
    simp only [List.filterMap_cons, productOf, List.filterMap_append]
    rw [productsOf_loop env products.length products 0]
    simp

/-- C2 witness: concrete completed run with one product. -/
theorem C2_witness :
    (eventsOf (analyzeStreamRun envCompleted).1).filterMap progressCurrent = List.range' 1 1 :=
  (C2_event_ordering envCompleted "tok" [sampleProduct] rfl rfl (by simp)).2.1

/-- C3: when the per-item race rejects for item k only (analyzer rejection
or the 8000 ms ceiling), the run still emits a product event for every item
and the final complete event; item k's analysis carries the failure message
in its error field and counts toward errorCount; the other items keep their
successful analyses. -/
theorem C3_per_item_failure_isolated (env : StreamEnv) (tok : String) (products : List Product)
    (k : Nat) (msg : String)
    (htok : env.accessToken = some tok)
    (hfetch : promiseRaceTimeout env.fetchSettleMs env.fetchResult fetchTimeoutMs "Fetch timeout"
      = Except.ok products)
    (hk : k < products.length)
    (hfail : itemOutcome env k = Except.error msg)
    (hmsg : msg ≠ "")
    (hothers : ∀ j, j < products.length → j ≠ k → isOkOutcome env j = true) :
    (eventsOf (analyzeStreamRun env).1).countP isProductEvent = products.length ∧
    (eventsOf (analyzeStreamRun env).1).getLast? = some (Event.complete (runSummaryOf env products)) ∧
    (runSummaryOf env products).errorCount = 1 ∧
    (runSummaryOf env products).successCount = products.length - 1 ∧
    msg ≠ "" ∧
    (runSummaryOf env products).products[k]? = (products[k]?.map fun p =>
      ({ product := p, analysis := some { error := some msg } } : AnalyzedProduct)) ∧
    (∀ j a, j < products.length → j ≠ k → itemOutcome env j = Except.ok a →
      (runSummaryOf env products).products[j]? = (products[j]?.map fun p =>
        ({ product := p, analysis := some a } : AnalyzedProduct))) := by
  have hne : products ≠ [] := by
    intro h
    rw [h] at hk
    simp at hk
  have hshape := analyzeStreamRun_completed env tok products htok hfetch hne
  have hidx : ∀ i, (runSummaryOf env products).products[i]?
      = (products[i]?.map fun p => attachAnalysis env p i) := by
    intro i
    simp only [runSummaryOf, List.getElem?_map, List.getElem?_enumFrom, Option.map_map]
    cases hp : products[i]? <;> simp [Function.comp]
  refine ⟨?_, ?_, ?_, ?_, hmsg, ?_, ?_⟩
  · rw [hshape]
    simp only [eventsOf_emit_cons, eventsOf_append, eventsOf_nil]
    simp only [List.countP_cons, List.countP_append, isProductEvent]
    rw [productCount_loop env products.length products 0]
    simp
  · rw [hshape]
    simp only [eventsOf_emit_cons, eventsOf_append, eventsOf_nil]
    rw [show ∀ (e1 e2 e3 : Event) (x : List Event) (c : Event),
        e1 :: e2 :: e3 :: (x ++ [c]) = (e1 :: e2 :: e3 :: x) ++ [c] from
      fun _ _ _ _ _ => by simp]
    rw [List.getLast?_concat]
  · simp only [runSummaryOf]
    apply countP_range'_eq_one _ products.length 0 k (Nat.zero_le k) (by omega)
    intro j h1 h2
    constructor
    · intro hj
      by_contra hjk
      have := hothers j (by omega) hjk
      rw [this] at hj
      simp at hj
    · intro hj
      subst hj
      rw [isOkOutcome_of_error hfail]
      rfl
  · simp only [runSummaryOf]
    apply countP_range'_all_but_one _ products.length 0 k (Nat.zero_le k) (by omega)
    intro j h1 h2
    constructor
    · intro hj hjk
      subst hjk
      rw [isOkOutcome_of_error hfail] at hj
      simp at hj
    · intro hjk
      exact hothers j (by omega) hjk
  · rw [hidx k]
    cases hp : products[k]? with
    | none => rfl
    | some p => simp [attachAnalysis, hfail]
  · intro j a hj hjk hok
    rw [hidx j]
    cases hp : products[j]? with
    | none => rfl
    | some p => simp [attachAnalysis, hok]

/-- C3 witness: two products, only the second analysis rejects. -/
theorem C3_witness :
    (runSummaryOf envTwoItems [sampleProduct, sampleProduct2]).errorCount = 1 :=
  (C3_per_item_failure_isolated envTwoItems "tok" [sampleProduct, sampleProduct2] 1
    "API rate limit" rfl rfl (by simp) rfl (by simp)
    (by
      intro j hj hjk
      cases j with
      | zero => rfl
      | succ m =>
        cases m with
        | zero => exact absurd rfl hjk
        | succ m2 => simp only [List.length_cons, List.length_nil] at hj; omega)).2.2.1

/-- C4: the fetch is raced against the 15000 ms ceiling (the timer wins once
the ceiling elapses); when the race rejects or the fetch returns zero items,
the run emits the two status events and one error event and terminates: no
progress, product or complete event is ever emitted and the latest-results
slot is untouched. -/
theorem C4_fetch_failure_aborts (env : StreamEnv) (tok : String)
    (htok : env.accessToken = some tok)
    (hab : (∃ msg, promiseRaceTimeout env.fetchSettleMs env.fetchResult fetchTimeoutMs "Fetch timeout"
        = Except.error msg)
      ∨ promiseRaceTimeout env.fetchSettleMs env.fetchResult fetchTimeoutMs "Fetch timeout"
        = Except.ok []) :
    (fetchTimeoutMs ≤ env.fetchSettleMs →
      promiseRaceTimeout env.fetchSettleMs env.fetchResult fetchTimeoutMs "Fetch timeout"
        = Except.error "Fetch timeout") ∧
    (∃ m, eventsOf (analyzeStreamRun env).1 =
      [Event.status "Starting analysis..." "init" none,
       Event.status "Fetching trending products..." "fetch" none,
       Event.errorEv m]) ∧
    (eventsOf (analyzeStreamRun env).1).countP isProgressEvent = 0 ∧
    (eventsOf (analyzeStreamRun env).1).countP isProductEvent = 0 ∧
    (eventsOf (analyzeStreamRun env).1).countP isCompleteEvent = 0 ∧
    (analyzeStreamRun env).2 = none ∧
    (∀ prev, updateLatest env prev = prev) := by
  have htimer : fetchTimeoutMs ≤ env.fetchSettleMs →
      promiseRaceTimeout env.fetchSettleMs env.fetchResult fetchTimeoutMs "Fetch timeout"
        = Except.error "Fetch timeout" := by
    intro hle
    simp [promiseRaceTimeout, Nat.not_lt.mpr hle]
  have hshape : ∃ m, analyzeStreamRun env =
      ([Action.emit (Event.status "Starting analysis..." "init" none),
        Action.emit (Event.status "Fetching trending products..." "fetch" none),
        Action.emit (Event.errorEv m)], none) := by
    rcases hab with ⟨msg, hmsg⟩ | hempty
    · exact ⟨msg, analyzeStreamRun_fetchError env tok msg htok hmsg⟩
    · exact ⟨streamNoProductsMsg, analyzeStreamRun_emptyFetch env tok htok hempty⟩
  obtain ⟨m, hm⟩ := hshape
  refine ⟨htimer, ⟨m, by rw [hm]; rfl⟩, ?_, ?_, ?_, by rw [hm], ?_⟩
  · rw [hm]; rfl
  · rw [hm]; rfl
  · rw [hm]; rfl
  · intro prev
    simp [updateLatest, hm]

/-- C4 witness: a fetch that settles after the ceiling. -/
theorem C4_witness :
    (analyzeStreamRun envFetchTimeout).2 = none :=
  (C4_fetch_failure_aborts envFetchTimeout "tok" rfl (Or.inl ⟨"Fetch timeout", rfl⟩)).2.2.2.2.2.1

/-- C5 counterexample: with the credential absent, the code emits the
initial status event before the credential check, so the trace is not free
of status events as the claim asserts. -/
theorem C5_counterexample :
    envNoCred.accessToken = none ∧
    ¬ (eventsOf (analyzeStreamRun envNoCred).1).countP isStatusEvent = 0 := by
  exact ⟨rfl, by decide⟩

/-- C5 (amended): with the credential absent the run emits exactly one
initial status event followed by exactly one error event, then the stream
closes: no progress, product or complete event ever appears and the
latest-results slot is untouched. -/
theorem C5_no_credential_aborts (env : StreamEnv) (h : env.accessToken = none) :
    eventsOf (analyzeStreamRun env).1 =
      [Event.status "Starting analysis..." "init" none, Event.errorEv streamAuthErrorMsg] ∧
    (eventsOf (analyzeStreamRun env).1).countP isErrorEvent = 1 ∧
    (eventsOf (analyzeStreamRun env).1).countP isStatusEvent = 1 ∧
    (eventsOf (analyzeStreamRun env).1).countP isProgressEvent = 0 ∧
    (eventsOf (analyzeStreamRun env).1).countP isProductEvent = 0 ∧
    (eventsOf (analyzeStreamRun env).1).countP isCompleteEvent = 0 ∧
    (analyzeStreamRun env).2 = none ∧
    (∀ prev, updateLatest env prev = prev) := by
  have hshape := analyzeStreamRun_noToken env h
  refine ⟨by rw [hshape]; rfl, by rw [hshape]; rfl, by rw [hshape]; rfl, by rw [hshape]; rfl,
    by rw [hshape]; rfl, by rw [hshape]; rfl, by rw [hshape], ?_⟩
  intro prev
  simp [updateLatest, hshape]

/-- C5 witness: concrete run with no stored token. -/
theorem C5_witness :
    eventsOf (analyzeStreamRun envNoCred).1 =
      [Event.status "Starting analysis..." "init" none, Event.errorEv streamAuthErrorMsg] :=
  (C5_no_credential_aborts envNoCred rfl).1

/-- C6 counterexample: on a completed one-item run the action directly after
the last product event is the 200 ms sleep, before the complete event — the
inter-item delay is not skipped after the final item. -/
theorem C6_counterexample :
    (analyzeStreamRun envCompleted).1.map kindOf =
      [ActionKind.statusK, ActionKind.statusK, ActionKind.statusK,
       ActionKind.progressK, ActionKind.productK, ActionKind.sleepK, ActionKind.completeK] ∧
    (actsAfterLastProduct (analyzeStreamRun envCompleted).1).any isSleepAct = true := by
  exact ⟨rfl, rfl⟩

/-- C6 (amended): the 200 ms inter-item delay is slept after each item
regardless of that item's success or failure, including after the final
item: each item's block in the action trace is progress, product, sleep,
and the complete event follows the final sleep. -/
theorem C6_delay_after_every_item (env : StreamEnv) (tok : String) (products : List Product)
    (htok : env.accessToken = some tok)
    (hfetch : promiseRaceTimeout env.fetchSettleMs env.fetchResult fetchTimeoutMs "Fetch timeout"
      = Except.ok products)
    (hne : products ≠ []) :
    (analyzeStreamRun env).1 =
      Action.emit (Event.status "Starting analysis..." "init" none) ::
      Action.emit (Event.status "Fetching trending products..." "fetch" none) ::
      Action.emit (Event.status ("Found " ++ toString products.length ++ " products. Starting analysis...")
        "analyze" (some products.length)) ::
      (((List.enumFrom 0 products).map fun pr =>
          [Action.emit (Event.progress (pr.1 + 1) products.length pr.2.name
             ("Analyzing " ++ pr.2.name ++ "...")),
           Action.emit (Event.productEv (attachAnalysis env pr.2 pr.1)),
           Action.sleep interItemDelayMs]).flatten
        ++ [Action.emit (Event.complete (runSummaryOf env products))]) := by
  rw [analyzeStreamRun_completed env tok products htok hfetch hne]
  rfl

/-- C6 witness: the amended trace shape evaluated on the one-item run. -/
theorem C6_witness :
    (analyzeStreamRun envCompleted).1.map kindOf =
      [ActionKind.statusK, ActionKind.statusK, ActionKind.statusK,
       ActionKind.progressK, ActionKind.productK, ActionKind.sleepK, ActionKind.completeK] := by
  have h := C6_delay_after_every_item envCompleted "tok" [sampleProduct] rfl rfl (by simp)
  rw [h]
  rfl

/-- C7: the bounded endpoint responds 401 with a JSON error body when no
credential is available, 404 when the fetch returns zero items, 500 with the
failure message when the fetch or any analysis call rejects, and on success
a 200 JSON body carrying totalProducts, the timestamp and every product with
its analysis attached in fetch order. -/
theorem C7_quick_analyze_responses (env : QuickEnv) :
    (env.accessToken = none →
      quickAnalyze env = QuickResponse.failure 401 "Authentication required") ∧
    (∀ tok m, env.accessToken = some tok → env.fetchResult = Except.error m →
      quickAnalyze env = QuickResponse.failure 500 m) ∧
    (∀ tok, env.accessToken = some tok → env.fetchResult = Except.ok [] →
      quickAnalyze env = QuickResponse.failure 404 "No products found") ∧
    (∀ tok products m, env.accessToken = some tok → env.fetchResult = Except.ok products →
      products ≠ [] → quickLoop env products 0 = Except.error m →
      quickAnalyze env = QuickResponse.failure 500 m) ∧
    (∀ (tok : String) (products : List Product) (f : Nat → Analysis),
      env.accessToken = some tok → env.fetchResult = Except.ok products →
      products ≠ [] →
      (∀ j, j < products.length → env.analyzeResult j = Except.ok (f j)) →
      quickAnalyze env = QuickResponse.success 200 products.length env.timestamp
        ((List.enumFrom 0 products).map fun pr =>
          ({ product := pr.2, analysis := some (f pr.1) } : AnalyzedProduct))) := by
  refine ⟨?_, ?_, ?_, ?_, ?_⟩
  · intro h
    simp [quickAnalyze, h]
  · intro tok m htok hm
    simp [quickAnalyze, htok, hm]
  · intro tok htok hm
    simp [quickAnalyze, htok, hm]
  · intro tok products m htok hm hne hloop
    have hempty : products.isEmpty = false := by
      cases products with
      | nil => exact absurd rfl hne
      | cons q qs => rfl
    simp [quickAnalyze, htok, hm, hempty, hloop]
  · intro tok products f htok hm hne hok
    have hempty : products.isEmpty = false := by
      cases products with
      | nil => exact absurd rfl hne
      | cons q qs => rfl
    have hloop := quickLoop_all_ok env f products 0 (fun j h1 h2 => hok j (by omega))
    simp [quickAnalyze, htok, hm, hempty, hloop, List.enumFrom_length]

/-- C7 witness: the no-credential and success branches on concrete
requests. -/
theorem C7_witness :
    quickAnalyze envQuickNoTok = QuickResponse.failure 401 "Authentication required" ∧
    quickAnalyze envQuickOk = QuickResponse.success 200 1 "t"
      [{ product := sampleProduct, analysis := some sampleAnalysis }] := by
  constructor
  · exact (C7_quick_analyze_responses envQuickNoTok).1 rfl
  · exact (C7_quick_analyze_responses envQuickOk).2.2.2.2 "tok" [sampleProduct]
      (fun _ => sampleAnalysis) rfl rfl (by simp) (fun j _ => rfl)

/-- C8: the latest-results slot is written exactly by completed streaming
runs — a completed run stores the RunSummary of its complete event and the
read-latest handler then returns exactly it — while the handler responds 404
while the slot is empty and aborted runs leave the slot unchanged. -/
theorem C8_latest_results_slot (env : StreamEnv) (prev : Option RunSummary) :
    latestResultsHandler none = LatestResponse.notFound 404 "No analysis results available" ∧
    (∀ s, latestResultsHandler (some s) = LatestResponse.ok s) ∧
    (∀ tok products, env.accessToken = some tok →
      promiseRaceTimeout env.fetchSettleMs env.fetchResult fetchTimeoutMs "Fetch timeout"
        = Except.ok products →
      products ≠ [] →
      updateLatest env prev = some (runSummaryOf env products) ∧
      (eventsOf (analyzeStreamRun env).1).getLast?
        = some (Event.complete (runSummaryOf env products)) ∧
      latestResultsHandler (updateLatest env prev) = LatestResponse.ok (runSummaryOf env products)) ∧
    (env.accessToken = none → updateLatest env prev = prev) ∧
    (∀ tok msg, env.accessToken = some tok →
      promiseRaceTimeout env.fetchSettleMs env.fetchResult fetchTimeoutMs "Fetch timeout"
        = Except.error msg →
      updateLatest env prev = prev) ∧
    (∀ tok, env.accessToken = some tok →
      promiseRaceTimeout env.fetchSettleMs env.fetchResult fetchTimeoutMs "Fetch timeout"
        = Except.ok [] →
      updateLatest env prev = prev) := by
  refine ⟨rfl, fun s => rfl, ?_, ?_, ?_, ?_⟩
  · intro tok products htok hfetch hne
    have hshape := analyzeStreamRun_completed env tok products htok hfetch hne
    have hupd : updateLatest env prev = some (runSummaryOf env products) := by
      simp [updateLatest, hshape]
    refine ⟨hupd, ?_, by rw [hupd]; rfl⟩
    rw [hshape]
    simp only [eventsOf_emit_cons, eventsOf_append, eventsOf_nil]
    rw [show ∀ (e1 e2 e3 : Event) (x : List Event) (c : Event),
        e1 :: e2 :: e3 :: (x ++ [c]) = (e1 :: e2 :: e3 :: x) ++ [c] from
      fun _ _ _ _ _ => by simp]
    rw [List.getLast?_concat]
  · intro h
    simp [updateLatest, analyzeStreamRun_noToken env h]
  · intro tok msg htok hmsg
    simp [updateLatest, analyzeStreamRun_fetchError env tok msg htok hmsg]
  · intro tok htok hempty
    simp [updateLatest, analyzeStreamRun_emptyFetch env tok htok hempty]

/-- C8 witness: a completed run writes its summary into the empty slot. -/
theorem C8_witness :
    updateLatest envCompleted none = some (runSummaryOf envCompleted [sampleProduct]) :=
  ((C8_latest_results_slot envCompleted none).2.2.1 "tok" [sampleProduct] rfl rfl (by simp)).1

/-- C9: the analyzer always resolves and never rejects: with no external
capability configured it resolves with the rule-based fallback, with an
unretryable failure it resolves with an analysis whose error field carries
the failure message, and hence the orchestrator's per-item catch branch is
reachable only when the 8000 ms timer wins the race against a resolving
analysis. -/
theorem C9_analyzer_always_resolves (configured : Bool) (attempts : Nat → ChatOutcome)
    (p : Product) (now : String) (retryCount : Nat) :
    (∃ a, analyzeProduct configured attempts p now retryCount = Except.ok a) ∧
    (configured = false →
      analyzeProduct configured attempts p now retryCount
        = Except.ok (createFallbackAnalysis p now)) ∧
    (∀ e, configured = true → attempts retryCount = ChatOutcome.throws e →
      ¬ (retryCount < chatMaxRetries ∧ chatShouldRetry e = true) →
      analyzeProduct configured attempts p now retryCount = Except.ok (apiErrorAnalysis e now) ∧
      (apiErrorAnalysis e now).error = some e.message) ∧
    (∀ (env : StreamEnv) (i : Nat) (a : Analysis) (msg : String),
      env.analyzeResult i = Except.ok a → itemOutcome env i = Except.error msg →
      msg = "Analysis timeout" ∧ analysisTimeoutMs ≤ env.analyzeSettleMs i) := by
  refine ⟨?_, ?_, ?_, ?_⟩
  · exact analyzeProduct_isOk configured attempts p now
      (chatMaxRetries + 1 - retryCount) retryCount (Nat.le_refl _)
  · intro hconf
    subst hconf
    rw [analyzeProduct]
    simp [analyzeAttemptBody]
  · intro e hconf hthrow hnr
    subst hconf
    constructor
    · rw [analyzeProduct]
      simp only [analyzeAttemptBody, Bool.not_true, Bool.false_eq_true, if_false, hthrow]
      simp [hnr]
    · rfl
  · intro env i a msg hres hout
    by_cases hlt : env.analyzeSettleMs i < analysisTimeoutMs
    · rw [itemOutcome, promiseRaceTimeout, if_pos hlt, hres] at hout
      exact absurd hout (by simp)
    · rw [itemOutcome, promiseRaceTimeout, if_neg hlt] at hout
      exact ⟨(Except.error.injEq _ _ |>.mp hout.symm), Nat.not_lt.mp hlt⟩

/-- C9 witness: the unconfigured analyzer resolves with the rule-based
fallback on a concrete product. -/
theorem C9_witness :
    analyzeProduct false (fun _ => ChatOutcome.throws { message := "boom" }) sampleProduct
      "2026-01-01" 0 = Except.ok (createFallbackAnalysis sampleProduct "2026-01-01") :=
  (C9_analyzer_always_resolves false (fun _ => ChatOutcome.throws { message := "boom" })
    sampleProduct "2026-01-01" 0).2.1 rfl

/-- C10: the listing source never rejects — a GraphQL failure falls back to
the REST call and a REST failure falls back to the built-in mock data, which
is non-empty for any positive limit — so the streaming fetch phase can abort
only through the 15000 ms race timeout or an empty successful fetch, never
through the listing source raising. -/
theorem C10_listing_source_never_rejects (env : PHFetchEnv) (limit : Nat) :
    (∃ ps, getTrendingProducts env limit = Except.ok ps) ∧
    (∀ e1 e2, getTrendingProductsGraphQL env limit = Except.error e1 →
      getTrendingProductsREST env limit = Except.error e2 →
      getTrendingProducts env limit = Except.ok (getMockProducts limit env.rand)) ∧
    (1 ≤ limit → getMockProducts limit env.rand ≠ []) ∧
    (∀ (senv : StreamEnv) (msg : String),
      senv.fetchResult = getTrendingProducts env streamFetchLimit →
      promiseRaceTimeout senv.fetchSettleMs senv.fetchResult fetchTimeoutMs "Fetch timeout"
        = Except.error msg →
      msg = "Fetch timeout" ∧ fetchTimeoutMs ≤ senv.fetchSettleMs) := by
  have hok : ∀ lim : Nat, ∃ ps, getTrendingProducts env lim = Except.ok ps := by
    intro lim
    rw [getTrendingProducts]
    cases hg : getTrendingProductsGraphQL env lim with
    | ok ps => exact ⟨ps, rfl⟩
    | error e1 =>
      cases hr : getTrendingProductsREST env lim with
      | ok ps => exact ⟨ps, rfl⟩
      | error e2 => exact ⟨getMockProducts lim env.rand, rfl⟩
  refine ⟨hok limit, ?_, ?_, ?_⟩
  · intro e1 e2 hg hr
    rw [getTrendingProducts, hg, hr]
  · intro hlim
    cases limit with
    | zero => omega
    | succ n =>
      simp [getMockProducts, mockBaseProducts]
  · intro senv msg hres hrace
    by_cases hlt : senv.fetchSettleMs < fetchTimeoutMs
    · rw [promiseRaceTimeout, if_pos hlt, hres] at hrace
      obtain ⟨ps, hps⟩ := hok streamFetchLimit
      rw [hps] at hrace
      exact absurd hrace (by simp)
    · rw [promiseRaceTimeout, if_neg hlt] at hrace
      exact ⟨(Except.error.injEq _ _ |>.mp hrace.symm), Nat.not_lt.mp hlt⟩

/-- C10 witness: with both the GraphQL and REST calls failing, the source
resolves with the non-empty mock data. -/
theorem C10_witness :
    getTrendingProducts envPHAllFail 10 = Except.ok (getMockProducts 10 envPHAllFail.rand) ∧
    getMockProducts 10 envPHAllFail.rand ≠ [] := by
  constructor
  · exact (C10_listing_source_never_rejects envPHAllFail 10).2.1
      "GraphQL request failed" "REST API request failed" rfl rfl
  · exact (C10_listing_source_never_rejects envPHAllFail 10).2.2.1 (by omega)

end ProductHuntNews
